import Mathlib

/-!
Shallow embedding of the scraper orchestration pipeline
(`canRunScraper`, `upsertJobs`, `runPythonScraper`, `runScraperWorkflow`
from the scraper service module, together with the `jobs` and
`scraper_runs` table rows from the schema module).

Timestamps are modelled as integer milliseconds (the value of
`Date.getTime()`); the ISO strings stored in the database are in
one-to-one order-preserving correspondence with these integers.
The database tables are modelled as lists of rows; a drizzle
`update ... where` is a `List.map` over the rows, an `insert` is an
append, a `select ... where` is a `List.filter`.
-/

namespace Crystal

/-- A row of the `jobs` table (a stored Listing).  The auto-increment `id`
column is never consulted by the pipeline (all job lookups and updates key
on `url`), so it is not part of the row model. -/
structure Job where
  title : String
  company : String
  location : Option String
  url : String
  description : Option String
  salary : Option String
  jobType : Option String
  postedAt : Option String
  roleSlug : Option String
  source : String
  isNewInLastHour : Bool
  firstSeen : Int
  lastSeen : Int
  createdAt : Int
  updatedAt : Int
deriving Repr, DecidableEq

/-- A row of the `scraper_runs` table (a RunRecord). -/
structure RunRecord where
  id : Nat
  source : String
  status : String
  jobsFound : Nat
  newJobs : Nat
  startedAt : Int
  completedAt : Option Int
  error : Option String
deriving Repr, DecidableEq

/-- One record of the JSON `jobs` array (a ScrapedJob).  Fields
that JavaScript may see as `undefined`/`null` are `Option String`. -/
structure ScrapedJob where
  title : String
  company : String
  location : Option String
  url : String
  description : Option String
  salary : Option String
  job_type : Option String
  posted_at : Option String
  role_slug : Option String
  source : String
deriving Repr, DecidableEq

/-- The parsed JSON document produced by the external process
(a ScraperResult). -/
structure ScraperResult where
  success : Bool
  keyword : String
  timestamp : String
  total_jobs : Nat
  jobs : List ScrapedJob
  error : Option String
deriving Repr, DecidableEq

/-- JavaScript `x || d` on an optional string: `undefined`, `null` and the
empty string are all falsy and select the default. -/
def orElseStr (x : Option String) (d : String) : String :=
  match x with
  | some s => if s = "" then d else s
  | none => d

/-- JavaScript `x || null` on an optional string: the empty string
collapses to `null`. -/
def strOrNull (x : Option String) : Option String :=
  match x with
  | some s => if s = "" then none else some s
  | none => none

/-- Integer ceiling division `⌈a / b⌉` for a positive divisor `b`,
the value `Math.ceil` computes on the exact quotient. -/
def ceilDiv (a b : Int) : Int :=
  (a + b - 1) / b

/-! ### CooldownGate: `canRunScraper` -/

/-- The rows `canRunScraper` queries: RunRecords of this source with
`status = "completed"`. -/
def completedRunsFor (runs : List RunRecord) (source : String) : List RunRecord :=
  runs.filter (fun r => r.source == source && r.status == "completed")

/-- `later a b` holds when completion time `a` is strictly later than `b`;
a `NULL` completion time sorts before every concrete time (SQLite treats
`NULL` as smaller than any value). -/
def later (a b : Option Int) : Bool :=
  match a, b with
  | none, _ => false
  | some _, none => true
  | some x, some y => y < x

/-- One step of scanning for the latest completed run: keep the row whose
completion time is strictly later. -/
def pickLatest (acc : Option RunRecord) (r : RunRecord) : Option RunRecord :=
  match acc with
  | none => some r
  | some a => if later r.completedAt a.completedAt then some r else some a

/-- `ORDER BY completed_at DESC LIMIT 1` over the completed runs of a
source: the row with the latest completion time (the first such row on
ties). -/
def latestCompleted (runs : List RunRecord) (source : String) : Option RunRecord :=
  (completedRunsFor runs source).foldl pickLatest none

/-- `canRunScraper` from the scraper service: fetch the most recent
completed run of `source`; allow when none exists (or its completion time
is `NULL`); otherwise allow iff at least `requiredMinutes` minutes have
elapsed, and report `Math.ceil(requiredMinutes - minutesSinceLastRun)`
otherwise.  `now` and completion times are in milliseconds, so
`minutesSinceLastRun < requiredMinutes` is `now - t < requiredMinutes *
60000` on the exact values. -/
def canRunScraper (runs : List RunRecord) (source : String)
    (requiredMinutes now : Int) : Bool × Int :=
  match latestCompleted runs source with
  | none => (true, 0)
  | some r =>
    match r.completedAt with
    | none => (true, 0)
    | some t =>
      if now - t < requiredMinutes * 60000 then
        (false, ceilDiv (requiredMinutes * 60000 - (now - t)) 60000)
      else
        (true, 0)

/-- The default `MIN_SCRAPER_INTERVAL_HOURS` is 2, i.e. 120 required
minutes. -/
def defaultRequiredMinutes : Int := 2 * 60

/-- A concrete completed linkedin run, finished at time 0, used to
instantiate the gate theorems. -/
def sampleCompletedRun : RunRecord :=
  { id := 1, source := "linkedin", status := "completed", jobsFound := 5,
    newJobs := 2, startedAt := 0, completedAt := some 0, error := none }

/-! ### IngestionEngine: `upsertJobs` -/

/-- Step 1 of `upsertJobs`: `UPDATE jobs SET is_new_in_last_hour = false
WHERE source = source`. -/
def clearFresh (source : String) (dbJobs : List Job) : List Job :=
  dbJobs.map (fun j => if j.source == source then { j with isNewInLastHour := false } else j)

/-- `SELECT ... WHERE url = u LIMIT 1` is non-empty. -/
def urlPresent (u : String) (dbJobs : List Job) : Bool :=
  dbJobs.any (fun j => j.url == u)

/-- The revisit update: `UPDATE jobs SET last_seen, is_new_in_last_hour =
false, updated_at WHERE url = u`, applied to one row. -/
def touch (now : Int) (u : String) (j : Job) : Job :=
  if j.url == u then { j with lastSeen := now, isNewInLastHour := false, updatedAt := now } else j

/-- The row inserted for a first-seen record: fresh, `firstSeen =
lastSeen = now`, nullable text fields via `x || null`, `role_slug ||
"other"`, and the own `source` of the record. -/
def mkJob (now : Int) (r : ScrapedJob) : Job :=
  { title := r.title
    company := r.company
    location := strOrNull r.location
    url := r.url
    description := strOrNull r.description
    salary := strOrNull r.salary
    jobType := strOrNull r.job_type
    postedAt := strOrNull r.posted_at
    roleSlug := some (orElseStr r.role_slug "other")
    source := r.source
    isNewInLastHour := true
    firstSeen := now
    lastSeen := now
    createdAt := now
    updatedAt := now }

/-- The body of the per-record loop of `upsertJobs`: look the record up by
URL; update every row with that URL when found, otherwise insert a new row
and count it as new. -/
def upsertOne (now : Int) (st : List Job × Nat) (r : ScrapedJob) : List Job × Nat :=
  if urlPresent r.url st.1 then
    (st.1.map (touch now r.url), st.2)
  else
    (st.1 ++ [mkJob now r], st.2 + 1)

/-- `upsertJobs` from the scraper service: clear freshness for the given
source, then fold the per-record upsert over the scraped records.  Returns
the new table, `totalJobs` (the record count) and `newJobs` (the number of
inserts). -/
def upsertJobs (dbJobs : List Job) (result : ScraperResult) (source : String)
    (now : Int) : List Job × Nat × Nat :=
  let cleared := clearFresh source dbJobs
  let p := result.jobs.foldl (upsertOne now) (cleared, 0)
  (p.1, result.jobs.length, p.2)

/-! ### ScraperInvoker: `runPythonScraper` -/

/-- The close-listener logic of `runPythonScraper`, as a function of the
observable process outcome on the close event: its exit code, its stderr
text, and the result of `JSON.parse` on its stdout (`none` when stdout is
not valid JSON).  Non-zero exit rejects with the exit code and stderr; a
parse failure rejects with the fixed parse message; a parsed document with
falsy `success` rejects with `result.error` (or a fixed fallback when that
is falsy); otherwise the document is resolved.  (The other settlement
path, the error listener firing on a spawn failure, is covered by
`runPythonScraperFull`.) -/
def runPythonScraper (exitCode : Int) (stderrData : String)
    (parsed : Option ScraperResult) : Except String ScraperResult :=
  if exitCode ≠ 0 then
    Except.error ("Scraper failed with code " ++ toString exitCode ++ ": " ++ stderrData)
  else
    match parsed with
    | none => Except.error "Failed to parse scraper JSON output"
    | some result =>
      if !result.success then
        Except.error (orElseStr result.error "Scraper failed")
      else
        Except.ok result

/-- The event that settles the invoker promise.  The source registers
exactly two settling listeners on the spawned process: the error listener
(which fires on a spawn failure such as ENOENT and rejects with the raw
error), and the close listener (which delivers the exit code once the
process ends, with the captured stderr and stdout). -/
inductive ProcEvent where
  | spawnError (err : String)
  | closed (exitCode : Int) (stderrData : String) (parsed : Option ScraperResult)
deriving Repr, DecidableEq

/-- `runPythonScraper` over both settlement paths: a spawn failure rejects
with the raw error string (the error listener); a closed process goes
through the close-listener logic. -/
def runPythonScraperFull (ev : ProcEvent) : Except String ScraperResult :=
  match ev with
  | ProcEvent.spawnError err => Except.error err
  | ProcEvent.closed exitCode stderrData parsed =>
      runPythonScraper exitCode stderrData parsed

/-- `runPythonScraperFull` together with the wall-clock time in
milliseconds from spawn until the settling event fired.  The source
attaches only the listeners above to the spawned process — it starts no
timer and never kills the process — so the promise settles exactly when
the process itself errors or ends, with a value that does not depend on
how long that took.  The elapsed-time argument records that running
time. -/
def runPythonScraperTimedFull (elapsedMs : Int) (ev : ProcEvent) :
    Except String ScraperResult :=
  runPythonScraperFull ev

/-! ### WorkflowCoordinator: `runScraperWorkflow` -/

/-- The blocked-by-cooldown message of `runScraperWorkflow`. -/
def blockedMessage (minutes : Int) (src : String) : String :=
  "Must wait " ++ toString minutes ++ " more minutes before running " ++ src ++ " scraper"

/-- the expansion of `"all"` into `["linkedin", "stepstone"]`, and a singleton otherwise. -/
def effectiveSources (source : String) : List String :=
  if source == "all" then ["linkedin", "stepstone"] else [source]

/-- The first source of the list that `canRunScraper` blocks (the loop in
`runScraperWorkflow` returns on the first blocked source). -/
def firstBlocked (runs : List RunRecord) (requiredMinutes now : Int)
    (sources : List String) : Option String :=
  sources.find? (fun s => !(canRunScraper runs s requiredMinutes now).1)

/-- Largest `id` present in the `scraper_runs` table (0 when empty). -/
def maxRunId (runs : List RunRecord) : Nat :=
  runs.foldl (fun m r => max m r.id) 0

/-- The auto-increment id the insert assigns to the new run record. -/
def nextRunId (runs : List RunRecord) : Nat :=
  maxRunId runs + 1

/-- The RunRecord inserted at the start of a workflow: `status =
"running"`, `started_at = now`, counters at their column defaults,
`completed_at` and `error` NULL. -/
def openRunRecord (id : Nat) (source : String) (now : Int) : RunRecord :=
  { id := id
    source := source
    status := "running"
    jobsFound := 0
    newJobs := 0
    startedAt := now
    completedAt := none
    error := none }

/-- `UPDATE scraper_runs SET ... WHERE id = id`. -/
def updateRunsById (id : Nat) (f : RunRecord → RunRecord)
    (runs : List RunRecord) : List RunRecord :=
  runs.map (fun r => if r.id == id then f r else r)

/-- The success-path closing update of the run record. -/
def completeRecord (now : Int) (totalJobs newJobs : Nat) (r : RunRecord) : RunRecord :=
  { r with status := "completed", completedAt := some now,
           jobsFound := totalJobs, newJobs := newJobs }

/-- The failure-path closing update of the run record. -/
def failRecord (now : Int) (msg : String) (r : RunRecord) : RunRecord :=
  { r with status := "failed", completedAt := some now, error := some msg }

/-- The two tables the workflow reads and writes. -/
structure WorkflowState where
  runs : List RunRecord
  jobs : List Job
deriving Repr, DecidableEq

/-- The `stats` object of a successful workflow result. -/
structure WorkflowStats where
  totalJobs : Nat
  newJobs : Nat
deriving Repr, DecidableEq

/-- The value `runScraperWorkflow` returns. -/
structure WorkflowResult where
  success : Bool
  message : String
  stats : Option WorkflowStats
deriving Repr, DecidableEq

/-- `runScraperWorkflow` from the scraper service, as a function of the
two tables and of the observable process outcome (`exitCode`,
`stderrData`, `parsed`, consumed through `runPythonScraper`): expand
`"all"` into the concrete sources and gate each one — on the first blocked
source return the wait message and touch nothing; otherwise insert a
running RunRecord, run the scraper, and either upsert the jobs and close
the record as completed with the counts, or close it as failed with the
error message.  Each timestamp taken during one call is modelled by the
single instant `now`.  (The in-process timer rescheduling touches neither
table and is outside this model.) -/
def runScraperWorkflow (st : WorkflowState) (source : String) (keyword : String)
    (requiredMinutes now : Int) (exitCode : Int) (stderrData : String)
    (parsed : Option ScraperResult) : WorkflowState × WorkflowResult :=
  match firstBlocked st.runs requiredMinutes now (effectiveSources source) with
  | some src =>
    (st, { success := false
           message := blockedMessage (canRunScraper st.runs src requiredMinutes now).2 src
           stats := none })
  | none =>
    let id := nextRunId st.runs
    let runs1 := st.runs ++ [openRunRecord id source now]
    match runPythonScraper exitCode stderrData parsed with
    | Except.ok result =>
      let u := upsertJobs st.jobs result source now
      ({ runs := updateRunsById id (completeRecord now u.2.1 u.2.2) runs1, jobs := u.1 },
       { success := true
         message := "Scraper completed successfully"
         stats := some { totalJobs := u.2.1, newJobs := u.2.2 } })
    | Except.error msg =>
      ({ runs := updateRunsById id (failRecord now msg) runs1, jobs := st.jobs },
       { success := false
         message := "Scraper failed: " ++ msg
         stats := none })

/-- A concrete stored listing used to instantiate the ingestion
theorems. -/
def sampleJob : Job :=
  { title := "Embedded Engineer", company := "Acme", location := some "Berlin",
    url := "https://example.com/j1", description := none, salary := none,
    jobType := none, postedAt := none, roleSlug := some "embedded-systems",
    source := "linkedin", isNewInLastHour := true, firstSeen := 0, lastSeen := 0,
    createdAt := 0, updatedAt := 0 }

/-- A scraped record with the same URL as `sampleJob` (a revisit). -/
def sampleScraped : ScrapedJob :=
  { title := "Embedded Engineer", company := "Acme", location := some "Berlin",
    url := "https://example.com/j1", description := none, salary := none,
    job_type := none, posted_at := none, role_slug := none, source := "linkedin" }

/-- A scraped record with a URL not yet stored (a first sighting), with no
category tag. -/
def sampleScrapedNew : ScrapedJob :=
  { title := "Firmware Dev", company := "Beta", location := none,
    url := "https://example.com/j2", description := none, salary := none,
    job_type := none, posted_at := none, role_slug := none, source := "stepstone" }

/-- A successful scrape payload holding the two sample records. -/
def sampleResult : ScraperResult :=
  { success := true, keyword := "embedded", timestamp := "2025-01-01T00:00:00Z",
    total_jobs := 2, jobs := [sampleScraped, sampleScrapedNew], error := none }

/-- A successful scrape payload holding only the first-sighting record. -/
def sampleResultNew : ScraperResult :=
  { success := true, keyword := "embedded", timestamp := "2025-01-01T00:00:00Z",
    total_jobs := 1, jobs := [sampleScrapedNew], error := none }

/-- A successful scrape payload with an empty record list. -/
def emptyResult : ScraperResult :=
  { success := true, keyword := "embedded", timestamp := "2025-01-01T00:00:00Z",
    total_jobs := 0, jobs := [], error := none }

/-- The parse of the stdout document `{"success":false,"error":"blocked"}`:
the absent fields of the contract are JavaScript `undefined`/defaults and
are never read on the failure path. -/
def blockedResult : ScraperResult :=
  { success := false, keyword := "", timestamp := "", total_jobs := 0,
    jobs := [], error := some "blocked" }

/-- The URLs of the stored listings, in table order. -/
def urls (dbJobs : List Job) : List String :=
  dbJobs.map (fun j => j.url)

/-- `SELECT count(*) FROM jobs WHERE url = u`. -/
def countUrl (u : String) (dbJobs : List Job) : Nat :=
  dbJobs.countP (fun j => j.url == u)

/-! ## Lemmas about the cooldown gate -/

theorem later_irrefl (a : Option Int) : later a a = false := by
  cases a <;> simp [later]

theorem later_asymm {a b : Option Int} (h : later a b = true) : later b a = false := by
  cases a <;> cases b <;> simp [later] at * <;> omega

theorem later_false_trans {a b c : Option Int} (hab : later a b = false)
    (hbc : later b c = false) : later a c = false := by
  cases a <;> cases b <;> cases c <;> simp [later] at * <;> omega

theorem foldl_pickLatest_spec (l : List RunRecord) :
    ∀ a : RunRecord, ∃ b, l.foldl pickLatest (some a) = some b ∧
      b ∈ a :: l ∧ ∀ r' ∈ a :: l, later r'.completedAt b.completedAt = false := by
  induction l with
  | nil =>
    intro a
    exact ⟨a, rfl, by simp, by simp [later_irrefl]⟩
  | cons r t ih =>
    intro a
    by_cases h : later r.completedAt a.completedAt = true
    · obtain ⟨b, hb, hmem, hall⟩ := ih r
      refine ⟨b, ?_, List.mem_cons_of_mem a hmem, ?_⟩
      · simpa [List.foldl, pickLatest, h] using hb
      · intro r' hr'
        rcases List.mem_cons.1 hr' with rfl | hr'
        · exact later_false_trans (later_asymm h) (hall r (by simp))
        · exact hall r' hr'
    · obtain ⟨b, hb, hmem, hall⟩ := ih a
      refine ⟨b, ?_, ?_, ?_⟩
      · simpa [List.foldl, pickLatest, h] using hb
      · rcases List.mem_cons.1 hmem with rfl | hmem
        · exact List.mem_cons_self _ _
        · exact List.mem_cons_of_mem _ (List.mem_cons_of_mem _ hmem)
      · intro r' hr'
        rcases List.mem_cons.1 hr' with rfl | hr'
        · exact hall r' (by simp)
        · rcases List.mem_cons.1 hr' with rfl | hr'
          · exact later_false_trans (by simpa using h) (hall a (by simp))
          · exact hall r' (by simp [hr'])

theorem latestCompleted_spec {runs : List RunRecord} {source : String} {rec : RunRecord}
    (h : latestCompleted runs source = some rec) :
    rec ∈ completedRunsFor runs source ∧
      ∀ r' ∈ completedRunsFor runs source, later r'.completedAt rec.completedAt = false := by
  unfold latestCompleted at h
  cases hl : completedRunsFor runs source with
  | nil => rw [hl] at h; simp at h
  | cons a t =>
    rw [hl] at h
    obtain ⟨b, hb, hmem, hall⟩ := foldl_pickLatest_spec t a
    have : List.foldl pickLatest none (a :: t) = some b := by
      simpa [List.foldl, pickLatest] using hb
    rw [this] at h
    cases h
    exact ⟨hmem, hall⟩

theorem latestCompleted_of_empty {runs : List RunRecord} {source : String}
    (h : completedRunsFor runs source = []) : latestCompleted runs source = none := by
  unfold latestCompleted
  rw [h]
  rfl

theorem completedRunsFor_idem (runs : List RunRecord) (source : String) :
    completedRunsFor (completedRunsFor runs source) source = completedRunsFor runs source := by
  simp [completedRunsFor, List.filter_filter]

theorem ceilDiv_bounds (a : Int) :
    60000 * (ceilDiv a 60000 - 1) < a ∧ a ≤ 60000 * ceilDiv a 60000 := by
  unfold ceilDiv
  omega

theorem canRunScraper_eq_of_latest {runs : List RunRecord} {source : String}
    {rec : RunRecord} {t : Int} (hrec : latestCompleted runs source = some rec)
    (ht : rec.completedAt = some t) (requiredMinutes now : Int) :
    canRunScraper runs source requiredMinutes now =
      if now - t < requiredMinutes * 60000 then
        (false, ceilDiv (requiredMinutes * 60000 - (now - t)) 60000)
      else (true, 0) := by
  simp only [canRunScraper, hrec, ht]

/-! ## Lemmas about the ingestion engine -/

@[simp]
theorem touch_url (now : Int) (u : String) (j : Job) : (touch now u j).url = j.url := by
  unfold touch
  split <;> rfl

theorem touch_of_ne {u : String} {j : Job} (h : j.url ≠ u) (now : Int) : touch now u j = j := by
  simp [touch, h]

theorem touch_fresh_of_false {j : Job} (h : j.isNewInLastHour = false) (now : Int)
    (u : String) : (touch now u j).isNewInLastHour = false := by
  unfold touch
  split <;> simp [h]

@[simp]
theorem clearFresh_url (s : String) (j : Job) :
    (if j.source == s then { j with isNewInLastHour := false } else j).url = j.url := by
  split <;> rfl

theorem urlPresent_iff {u : String} {dbJobs : List Job} :
    urlPresent u dbJobs = true ↔ u ∈ urls dbJobs := by
  simp only [urlPresent, urls, List.any_eq_true, beq_iff_eq, List.mem_map]

theorem urls_map_touch (now : Int) (u : String) (dbJobs : List Job) :
    urls (dbJobs.map (touch now u)) = urls dbJobs := by
  unfold urls
  rw [List.map_map]
  apply List.map_congr_left
  intro j _
  simp [Function.comp]

theorem urls_clearFresh (s : String) (dbJobs : List Job) :
    urls (clearFresh s dbJobs) = urls dbJobs := by
  unfold urls clearFresh
  rw [List.map_map]
  apply List.map_congr_left
  intro j _
  simp only [Function.comp]
  split <;> rfl

theorem urlPresent_map_touch (now : Int) (u v : String) (dbJobs : List Job) :
    urlPresent v (dbJobs.map (touch now u)) = urlPresent v dbJobs := by
  by_cases h : urlPresent v dbJobs = true
  · rw [h]
    rw [urlPresent_iff] at h ⊢
    rwa [urls_map_touch]
  · rw [eq_false_of_ne_true h]
    apply eq_false_of_ne_true
    rw [urlPresent_iff, urls_map_touch]
    rw [urlPresent_iff] at h
    exact h

theorem urlPresent_clearFresh (s v : String) (dbJobs : List Job) :
    urlPresent v (clearFresh s dbJobs) = urlPresent v dbJobs := by
  by_cases h : urlPresent v dbJobs = true
  · rw [h]
    rw [urlPresent_iff] at h ⊢
    rwa [urls_clearFresh]
  · rw [eq_false_of_ne_true h]
    apply eq_false_of_ne_true
    rw [urlPresent_iff, urls_clearFresh]
    rw [urlPresent_iff] at h
    exact h

@[simp]
theorem mkJob_url (now : Int) (r : ScrapedJob) : (mkJob now r).url = r.url := rfl

theorem upsertOne_present_mono {now : Int} {st : List Job × Nat} {r : ScrapedJob}
    {v : String} (h : urlPresent v st.1 = true) :
    urlPresent v (upsertOne now st r).1 = true := by
  unfold upsertOne
  split
  · rwa [urlPresent_map_touch]
  · rw [urlPresent_iff] at h ⊢
    simp only [urls, List.map_append]
    exact List.mem_append_left _ h

theorem upsertOne_adds_url (now : Int) (st : List Job × Nat) (r : ScrapedJob) :
    urlPresent r.url (upsertOne now st r).1 = true := by
  unfold upsertOne
  split
  · next h => rwa [urlPresent_map_touch]
  · rw [urlPresent_iff]
    simp [urls]

theorem foldl_upsert_present_mono (now : Int) (rs : List ScrapedJob) :
    ∀ (st : List Job × Nat) (v : String), urlPresent v st.1 = true →
      urlPresent v (rs.foldl (upsertOne now) st).1 = true := by
  induction rs with
  | nil => intro st v h; exact h
  | cons r t ih =>
    intro st v h
    exact ih _ v (upsertOne_present_mono h)

theorem foldl_upsert_present (now : Int) (rs : List ScrapedJob) :
    ∀ (st : List Job × Nat) (r : ScrapedJob), r ∈ rs →
      urlPresent r.url (rs.foldl (upsertOne now) st).1 = true := by
  induction rs with
  | nil => intro st r h; cases h
  | cons r0 t ih =>
    intro st r h
    rcases List.mem_cons.1 h with rfl | h
    · exact foldl_upsert_present_mono now t _ _ (upsertOne_adds_url now st r)
    · exact ih _ r h

theorem upsertOne_of_present {now : Int} {st : List Job × Nat} {r : ScrapedJob}
    (h : urlPresent r.url st.1 = true) :
    upsertOne now st r = (st.1.map (touch now r.url), st.2) := by
  unfold upsertOne
  rw [if_pos h]

theorem upsertOne_of_absent {now : Int} {st : List Job × Nat} {r : ScrapedJob}
    (h : urlPresent r.url st.1 = false) :
    upsertOne now st r = (st.1 ++ [mkJob now r], st.2 + 1) := by
  unfold upsertOne
  rw [if_neg (by simp [h])]

theorem foldl_upsert_count (now : Int) (rs : List ScrapedJob) :
    ∀ (dbJobs : List Job) (c : Nat), (∀ r ∈ rs, urlPresent r.url dbJobs = true) →
      (rs.foldl (upsertOne now) (dbJobs, c)).2 = c := by
  induction rs with
  | nil => intro dbJobs c _; rfl
  | cons r t ih =>
    intro dbJobs c h
    rw [List.foldl_cons, upsertOne_of_present (h r (by simp))]
    exact ih _ c (fun r' hr' => by
      rw [urlPresent_map_touch]
      exact h r' (by simp [hr']))

theorem freshFalseAt_map_touch {u : String} {dbJobs : List Job} (now : Int) (v : String)
    (h : ∀ j ∈ dbJobs, j.url = u → j.isNewInLastHour = false) :
    ∀ j ∈ dbJobs.map (touch now v), j.url = u → j.isNewInLastHour = false := by
  intro j hj hu
  obtain ⟨j0, hj0, rfl⟩ := List.mem_map.1 hj
  by_cases hv : j0.url = v
  · simp [touch, hv]
  · rw [touch_of_ne hv] at hu ⊢
    exact h j0 hj0 hu

theorem freshFalseAt_after_touch (now : Int) (u : String) (dbJobs : List Job) :
    ∀ j ∈ dbJobs.map (touch now u), j.url = u → j.isNewInLastHour = false := by
  intro j hj hu
  obtain ⟨j0, hj0, rfl⟩ := List.mem_map.1 hj
  by_cases hv : j0.url = u
  · simp [touch, hv]
  · rw [touch_of_ne hv] at hu
    exact absurd hu hv

theorem foldl_touch_preserves_freshFalse (now : Int) (rs : List ScrapedJob) (u : String) :
    ∀ (dbJobs : List Job) (c : Nat), (∀ r ∈ rs, urlPresent r.url dbJobs = true) →
      (∀ j ∈ dbJobs, j.url = u → j.isNewInLastHour = false) →
      ∀ j ∈ (rs.foldl (upsertOne now) (dbJobs, c)).1, j.url = u →
        j.isNewInLastHour = false := by
  induction rs with
  | nil => intro dbJobs c _ h; exact h
  | cons r t ih =>
    intro dbJobs c hall h
    rw [List.foldl_cons, upsertOne_of_present (hall r (by simp))]
    exact ih _ c
      (fun r' hr' => by
        rw [urlPresent_map_touch]
        exact hall r' (by simp [hr']))
      (freshFalseAt_map_touch now r.url h)

theorem foldl_upsert_freshFalse (now : Int) (rs : List ScrapedJob) :
    ∀ (dbJobs : List Job) (c : Nat) (u : String),
      (∀ r ∈ rs, urlPresent r.url dbJobs = true) → (∃ r ∈ rs, r.url = u) →
      ∀ j ∈ (rs.foldl (upsertOne now) (dbJobs, c)).1, j.url = u →
        j.isNewInLastHour = false := by
  induction rs with
  | nil =>
    intro dbJobs c u _ hex
    obtain ⟨r, hr, _⟩ := hex
    cases hr
  | cons r t ih =>
    intro dbJobs c u hall hex
    rw [List.foldl_cons, upsertOne_of_present (hall r (by simp))]
    have hall' : ∀ r' ∈ t, urlPresent r'.url (dbJobs.map (touch now r.url)) = true := by
      intro r' hr'
      rw [urlPresent_map_touch]
      exact hall r' (by simp [hr'])
    obtain ⟨r0, hr0, hr0u⟩ := hex
    rcases List.mem_cons.1 hr0 with rfl | hr0
    · subst hr0u
      exact foldl_touch_preserves_freshFalse now t r0.url _ c hall'
        (freshFalseAt_after_touch now r0.url dbJobs)
    · exact ih _ c u hall' ⟨r0, hr0, hr0u⟩

theorem nodup_urls_upsertOne {now : Int} {st : List Job × Nat} {r : ScrapedJob}
    (h : (urls st.1).Nodup) : (urls (upsertOne now st r).1).Nodup := by
  unfold upsertOne
  split
  · rwa [urls_map_touch]
  · next hp =>
    have hnotin : r.url ∉ urls st.1 := by
      intro hmem
      rw [← urlPresent_iff] at hmem
      simp [hmem] at hp
    simp only [urls, List.map_append]
    simp [List.nodup_append]
    exact ⟨h, by simpa [urls] using hnotin⟩

theorem foldl_upsert_nodup (now : Int) (rs : List ScrapedJob) :
    ∀ (st : List Job × Nat), (urls st.1).Nodup →
      (urls (rs.foldl (upsertOne now) st).1).Nodup := by
  induction rs with
  | nil => intro st h; exact h
  | cons r t ih =>
    intro st h
    exact ih _ (nodup_urls_upsertOne h)

theorem countUrl_map_touch (now : Int) (u v : String) (dbJobs : List Job) :
    countUrl v (dbJobs.map (touch now u)) = countUrl v dbJobs := by
  unfold countUrl
  rw [List.countP_map]
  apply List.countP_congr
  intro j _
  simp [Function.comp]

theorem countUrl_eq_zero_of_absent {u : String} {dbJobs : List Job}
    (h : urlPresent u dbJobs = false) : countUrl u dbJobs = 0 := by
  unfold countUrl
  rw [List.countP_eq_zero]
  intro j hj
  simp only [beq_iff_eq]
  intro hju
  have hmem : u ∈ urls dbJobs := List.mem_map.2 ⟨j, hj, hju⟩
  rw [← urlPresent_iff] at hmem
  rw [h] at hmem
  cases hmem

theorem countUrl_eq_one_of_nodup {u : String} : ∀ {dbJobs : List Job},
    (urls dbJobs).Nodup → urlPresent u dbJobs = true → countUrl u dbJobs = 1 := by
  intro dbJobs
  induction dbJobs with
  | nil => intro _ h; simp [urlPresent] at h
  | cons j t ih =>
    intro hnd hp
    have hnd0 : (j.url :: urls t).Nodup := hnd
    have hnd' : (urls t).Nodup ∧ j.url ∉ urls t := by
      have h := List.nodup_cons.1 hnd0
      exact ⟨h.2, h.1⟩
    by_cases hj : j.url = u
    · have habs : urlPresent u t = false := by
        apply eq_false_of_ne_true
        rw [urlPresent_iff]
        rw [← hj]
        exact fun hmem => hnd'.2 hmem
      have h0 := countUrl_eq_zero_of_absent habs
      unfold countUrl at h0 ⊢
      rw [List.countP_cons]
      simp [hj, h0]
    · have hp' : urlPresent u t = true := by
        have hp2 : j.url = u ∨ ∃ x ∈ t, x.url = u := by
          simpa [urlPresent, List.any_eq_true] using hp
        rcases hp2 with h | ⟨j', hj', hju⟩
        · exact absurd h hj
        · unfold urlPresent
          rw [List.any_eq_true]
          exact ⟨j', hj', by simp [hju]⟩
      simpa [countUrl, List.countP_cons, hj] using ih hnd'.1 hp'

theorem foldl_upsert_mem_fixed (now : Int) (rs : List ScrapedJob) :
    ∀ (st : List Job × Nat) (j : Job), j ∈ st.1 → (∀ r ∈ rs, r.url ≠ j.url) →
      j ∈ (rs.foldl (upsertOne now) st).1 := by
  induction rs with
  | nil => intro st j hj _; exact hj
  | cons r t ih =>
    intro st j hj hne
    apply ih _ j _ (fun r' hr' => hne r' (by simp [hr']))
    unfold upsertOne
    split
    · exact List.mem_map.2 ⟨j, hj, touch_of_ne (fun h => hne r (by simp) h.symm) now⟩
    · exact List.mem_append_left _ hj

/-! ## C2 -/

/-- C2: the per-record reconciliation step looks listings up by URL.  When
a listing with the URL of the record is stored, every such row is touched
(`lastSeen`/`updatedAt` set to now, freshness forced false, all other
columns untouched), no row is inserted, the URL count is preserved, and
under URL uniqueness it is 1 before and after.  When none is stored, one
row is inserted with freshness true, `firstSeen = lastSeen = now`, the
category tag defaulting to `"other"` when the record supplies none, and
the new-listing counter is incremented.  The whole reconciliation
preserves global URL uniqueness. -/
theorem upsert_by_url_spec (now : Int) (dbJobs : List Job) (c : Nat) (r : ScrapedJob) :
    (urlPresent r.url dbJobs = true →
      upsertOne now (dbJobs, c) r = (dbJobs.map (touch now r.url), c)
      ∧ countUrl r.url (upsertOne now (dbJobs, c) r).1 = countUrl r.url dbJobs
      ∧ (upsertOne now (dbJobs, c) r).1.length = dbJobs.length
      ∧ ∀ j ∈ dbJobs, j.url = r.url →
          touch now r.url j =
            { j with lastSeen := now, isNewInLastHour := false, updatedAt := now })
    ∧ (urlPresent r.url dbJobs = false →
      upsertOne now (dbJobs, c) r = (dbJobs ++ [mkJob now r], c + 1)
      ∧ (mkJob now r).isNewInLastHour = true
      ∧ (mkJob now r).firstSeen = now ∧ (mkJob now r).lastSeen = now
      ∧ (r.role_slug = none → (mkJob now r).roleSlug = some "other")
      ∧ countUrl r.url (upsertOne now (dbJobs, c) r).1 = countUrl r.url dbJobs + 1)
    ∧ ((urls dbJobs).Nodup → urlPresent r.url dbJobs = true →
        countUrl r.url dbJobs = 1 ∧ countUrl r.url (upsertOne now (dbJobs, c) r).1 = 1)
    ∧ ∀ result source, (urls dbJobs).Nodup →
        (urls (upsertJobs dbJobs result source now).1).Nodup := by
  refine ⟨?_, ?_, ?_, ?_⟩
  · intro h
    refine ⟨upsertOne_of_present h, ?_, ?_, ?_⟩
    · rw [upsertOne_of_present h, countUrl_map_touch]
    · rw [upsertOne_of_present h]
      exact List.length_map _ _
    · intro j _ hju
      simp [touch, hju]
  · intro h
    refine ⟨upsertOne_of_absent h, rfl, rfl, rfl, ?_, ?_⟩
    · intro hr
      simp [mkJob, orElseStr, hr]
    · rw [upsertOne_of_absent h]
      simp [countUrl, List.countP_append, List.countP_cons]
  · intro hnd h
    refine ⟨countUrl_eq_one_of_nodup hnd h, ?_⟩
    rw [upsertOne_of_present h, countUrl_map_touch]
    exact countUrl_eq_one_of_nodup hnd h
  · intro result source hnd
    show (urls (result.jobs.foldl (upsertOne now) (clearFresh source dbJobs, 0)).1).Nodup
    apply foldl_upsert_nodup
    rwa [urls_clearFresh]

/-- Witness for C2: revisiting the stored sample listing touches the one
row and keeps its URL count at 1; re-ingesting an unseen record appends
one fresh row with the category tag defaulted to `"other"`. -/
theorem upsert_by_url_spec_witness :
    upsertOne 100 ([sampleJob], 0) sampleScraped
        = ([touch 100 sampleScraped.url sampleJob], 0)
    ∧ countUrl sampleScraped.url (upsertOne 100 ([sampleJob], 0) sampleScraped).1 = 1
    ∧ countUrl sampleScraped.url [sampleJob] = 1
    ∧ upsertOne 100 ([sampleJob], 0) sampleScrapedNew
        = ([sampleJob] ++ [mkJob 100 sampleScrapedNew], 1)
    ∧ (mkJob 100 sampleScrapedNew).roleSlug = some "other" := by
  have h1 := upsert_by_url_spec 100 [sampleJob] 0 sampleScraped
  have h2 := upsert_by_url_spec 100 [sampleJob] 0 sampleScrapedNew
  refine ⟨?_, ?_, ?_, ?_, ?_⟩
  · exact (h1.1 (by decide)).1
  · exact ((h1.2.2.1 (by decide) (by decide))).2
  · exact ((h1.2.2.1 (by decide) (by decide))).1
  · exact (h2.2.1 (by decide)).1
  · exact (h2.2.1 (by decide)).2.2.2.2.1 rfl

/-! ## Lemmas about the workflow coordinator -/

theorem le_foldl_maxRunId : ∀ (l : List RunRecord) (a : Nat),
    a ≤ l.foldl (fun m r => max m r.id) a := by
  intro l
  induction l with
  | nil => intro a; exact Nat.le_refl a
  | cons r t ih =>
    intro a
    exact le_trans (Nat.le_max_left a r.id) (ih (max a r.id))

theorem mem_le_foldl_maxRunId : ∀ (l : List RunRecord) (a : Nat) (r : RunRecord), r ∈ l →
    r.id ≤ l.foldl (fun m r => max m r.id) a := by
  intro l
  induction l with
  | nil => intro a r h; cases h
  | cons r0 t ih =>
    intro a r h
    rcases List.mem_cons.1 h with rfl | h
    · exact le_trans (Nat.le_max_right a r.id) (le_foldl_maxRunId t (max a r.id))
    · exact ih (max a r0.id) r h

theorem nextRunId_not_mem {runs : List RunRecord} :
    ∀ r ∈ runs, r.id ≠ nextRunId runs := by
  intro r hr
  have h := mem_le_foldl_maxRunId runs 0 r hr
  unfold nextRunId maxRunId
  omega

theorem updateRunsById_append_new {runs : List RunRecord} {rec : RunRecord} {rid : Nat}
    (hid : ∀ r ∈ runs, r.id ≠ rid) (hrec : rec.id = rid) (f : RunRecord → RunRecord) :
    updateRunsById rid f (runs ++ [rec]) = runs ++ [f rec] := by
  unfold updateRunsById
  rw [List.map_append]
  congr 1
  · rw [show runs.map (fun r => if r.id == rid then f r else r) = runs.map id
      from List.map_congr_left (fun r hr => by simp [hid r hr]), List.map_id]
  · simp [hrec]

/-- The non-blocked workflow appends exactly one record to the run table:
it carries the fresh id, the requested source selector, `startedAt = now`,
a terminal status, and `completedAt = some now`. -/
theorem workflow_runs_shape (st : WorkflowState) (source keyword : String)
    (requiredMinutes now : Int) (exitCode : Int) (stderrData : String)
    (parsed : Option ScraperResult)
    (hb : firstBlocked st.runs requiredMinutes now (effectiveSources source) = none) :
    ∃ final : RunRecord,
      (runScraperWorkflow st source keyword requiredMinutes now exitCode stderrData
          parsed).1.runs = st.runs ++ [final]
      ∧ final.id = nextRunId st.runs
      ∧ final.source = source
      ∧ final.startedAt = now
      ∧ (final.status = "completed" ∨ final.status = "failed")
      ∧ final.completedAt = some now := by
  cases hrp : runPythonScraper exitCode stderrData parsed with
  | ok result =>
    refine ⟨completeRecord now (upsertJobs st.jobs result source now).2.1
        (upsertJobs st.jobs result source now).2.2
        (openRunRecord (nextRunId st.runs) source now), ?_, rfl, rfl, rfl, Or.inl rfl, rfl⟩
    simp only [runScraperWorkflow, hb, hrp]
    exact updateRunsById_append_new nextRunId_not_mem rfl _
  | error msg =>
    refine ⟨failRecord now msg (openRunRecord (nextRunId st.runs) source now),
      ?_, rfl, rfl, rfl, Or.inr rfl, rfl⟩
    simp only [runScraperWorkflow, hb, hrp]
    exact updateRunsById_append_new nextRunId_not_mem rfl _

theorem completedRunsFor_append_other {runs : List RunRecord} {rec : RunRecord}
    {s : String} (h : rec.source ≠ s) :
    completedRunsFor (runs ++ [rec]) s = completedRunsFor runs s := by
  unfold completedRunsFor
  rw [List.filter_append]
  simp [h]

theorem canRunScraper_congr {runs runs' : List RunRecord} {s : String}
    (h : completedRunsFor runs s = completedRunsFor runs' s) (req now : Int) :
    canRunScraper runs s req now = canRunScraper runs' s req now := by
  unfold canRunScraper latestCompleted
  rw [h]

/-! ## C3 -/

/-- C3: reconciliation clears freshness for the requested source before any
record is processed (the fold starts from the cleared table), so a cycle
with an empty record list leaves exactly the cleared table, reports
`newCount = 0` and `totalSeen = 0`, and afterwards no listing of that
source is fresh. -/
theorem reconcile_clears_freshness_first (dbJobs : List Job) (result : ScraperResult)
    (source : String) (now : Int) :
    (upsertJobs dbJobs result source now).1
        = (result.jobs.foldl (upsertOne now) (clearFresh source dbJobs, 0)).1
    ∧ (result.jobs = [] →
        upsertJobs dbJobs result source now = (clearFresh source dbJobs, 0, 0)
        ∧ ∀ j ∈ (upsertJobs dbJobs result source now).1,
            j.source = source → j.isNewInLastHour = false) := by
  constructor
  · rfl
  · intro h
    constructor
    · simp [upsertJobs, h]
    · intro j hj hsrc
      have hj' : j ∈ clearFresh source dbJobs := by
        simpa [upsertJobs, h] using hj
      obtain ⟨j0, _, rfl⟩ := List.mem_map.1 hj'
      by_cases hs : j0.source == source
      · simp [hs]
      · rw [if_neg hs] at hsrc ⊢
        exact absurd (by simp [hsrc]) hs

/-- Witness for C3: a zero-record cycle for linkedin turns the fresh
sample listing stale and reports `(0, 0)`. -/
theorem reconcile_clears_freshness_first_witness :
    upsertJobs [sampleJob] emptyResult "linkedin" 100
        = ([{ sampleJob with isNewInLastHour := false }], 0, 0)
    ∧ ∀ j ∈ (upsertJobs [sampleJob] emptyResult "linkedin" 100).1,
        j.source = "linkedin" → j.isNewInLastHour = false := by
  have h := (reconcile_clears_freshness_first [sampleJob] emptyResult "linkedin" 100).2 rfl
  constructor
  · rw [h.1]
    decide
  · exact h.2

/-! ## C4 -/

/-- C4: reconciliation is idempotent on freshness accounting: running the
same record set twice for the same source yields `newCount = 0` on the
second run, and after the second run every listing whose URL occurs in the
record set is not fresh. -/
theorem reconcile_idempotent (dbJobs : List Job) (result : ScraperResult)
    (source : String) (now1 now2 : Int) :
    (upsertJobs (upsertJobs dbJobs result source now1).1 result source now2).2.2 = 0
    ∧ ∀ j ∈ (upsertJobs (upsertJobs dbJobs result source now1).1 result source now2).1,
        (∃ r ∈ result.jobs, j.url = r.url) → j.isNewInLastHour = false := by
  have hpresent : ∀ r ∈ result.jobs,
      urlPresent r.url (upsertJobs dbJobs result source now1).1 = true := by
    intro r hr
    show urlPresent r.url
      (result.jobs.foldl (upsertOne now1) (clearFresh source dbJobs, 0)).1 = true
    exact foldl_upsert_present now1 result.jobs _ r hr
  have hpresent2 : ∀ r ∈ result.jobs,
      urlPresent r.url (clearFresh source (upsertJobs dbJobs result source now1).1) = true := by
    intro r hr
    rw [urlPresent_clearFresh]
    exact hpresent r hr
  constructor
  · show (result.jobs.foldl (upsertOne now2)
      (clearFresh source (upsertJobs dbJobs result source now1).1, 0)).2 = 0
    exact foldl_upsert_count now2 result.jobs _ 0 hpresent2
  · intro j hj hex
    obtain ⟨r, hr, hru⟩ := hex
    have hj' : j ∈ (result.jobs.foldl (upsertOne now2)
        (clearFresh source (upsertJobs dbJobs result source now1).1, 0)).1 := hj
    exact foldl_upsert_freshFalse now2 result.jobs _ 0 j.url hpresent2
      ⟨r, hr, hru.symm⟩ j hj' rfl

/-- Witness for C4: running the sample record set twice over the sample
table yields zero new listings the second time, and the ingested URLs are
all stale afterwards. -/
theorem reconcile_idempotent_witness :
    (upsertJobs (upsertJobs [sampleJob] sampleResult "linkedin" 0).1
        sampleResult "linkedin" 100).2.2 = 0
    ∧ ∀ j ∈ (upsertJobs (upsertJobs [sampleJob] sampleResult "linkedin" 0).1
        sampleResult "linkedin" 100).1,
        (∃ r ∈ sampleResult.jobs, j.url = r.url) → j.isNewInLastHour = false :=
  reconcile_idempotent [sampleJob] sampleResult "linkedin" 0 100

/-! ## C9 -/

/-- C9: in an `"all"` cycle the freshness-clearing step only matches
listings whose source is the literal string `"all"` — it fixes every
listing with a concrete source — inserted listings carry their originating
own source, and a stored listing not revisited by any record of the batch
survives an `"all"` cycle completely unchanged (in particular it stays
fresh if it was fresh). -/
theorem all_cycle_preserves_concrete_freshness (dbJobs : List Job)
    (result : ScraperResult) (now : Int) :
    ((∀ j ∈ dbJobs, j.source ≠ "all") → clearFresh "all" dbJobs = dbJobs)
    ∧ (∀ j ∈ dbJobs, j.source ≠ "all" → (∀ r ∈ result.jobs, r.url ≠ j.url) →
        j ∈ (upsertJobs dbJobs result "all" now).1)
    ∧ ∀ r, (mkJob now r).source = r.source := by
  refine ⟨?_, ?_, fun r => rfl⟩
  · intro h
    unfold clearFresh
    rw [show dbJobs.map (fun j =>
        if j.source == "all" then { j with isNewInLastHour := false } else j) = dbJobs.map id
      from List.map_congr_left (fun j hj => by simp [h j hj]), List.map_id]
  · intro j hj hsrc hne
    show j ∈ (result.jobs.foldl (upsertOne now) (clearFresh "all" dbJobs, 0)).1
    apply foldl_upsert_mem_fixed now result.jobs _ j _ hne
    show j ∈ clearFresh "all" dbJobs
    unfold clearFresh
    exact List.mem_map.2 ⟨j, hj, by simp [hsrc]⟩

/-- Witness for C9: an `"all"` cycle that ingests only the unseen record
leaves the fresh linkedin sample listing untouched — it is still stored
and still fresh. -/
theorem all_cycle_preserves_concrete_freshness_witness :
    clearFresh "all" [sampleJob] = [sampleJob]
    ∧ sampleJob ∈ (upsertJobs [sampleJob] sampleResultNew "all" 100).1
    ∧ sampleJob.isNewInLastHour = true := by
  have h := all_cycle_preserves_concrete_freshness [sampleJob] sampleResultNew 100
  refine ⟨h.1 (by decide), h.2.1 sampleJob (by decide) (by decide) (by decide), by decide⟩

/-! ## C1 -/

/-- C1: `canRunScraper` depends only on the completed RunRecords of the
queried source; with none present it answers `(allowed = true,
minutesUntilNext = 0)`; otherwise, with `t` the completion time of the
most recent completed record (most recent: no completed record of the
source completed later), it answers allowed when at least
`requiredMinutes` minutes have elapsed since `t`, and otherwise blocks
with `minutesUntilNext = ⌈requiredMinutes − elapsed⌉`, characterised
exactly by the integer ceiling bounds on the remaining milliseconds. -/
theorem canRunScraper_spec (runs : List RunRecord) (source : String)
    (requiredMinutes now : Int) :
    canRunScraper (completedRunsFor runs source) source requiredMinutes now =
        canRunScraper runs source requiredMinutes now
    ∧ (completedRunsFor runs source = [] →
        canRunScraper runs source requiredMinutes now = (true, 0))
    ∧ ∀ rec, latestCompleted runs source = some rec →
        rec ∈ completedRunsFor runs source ∧
        (∀ r' ∈ completedRunsFor runs source, ∀ t' t, r'.completedAt = some t' →
            rec.completedAt = some t → t' ≤ t) ∧
        ∀ t, rec.completedAt = some t →
          (requiredMinutes * 60000 ≤ now - t →
            canRunScraper runs source requiredMinutes now = (true, 0)) ∧
          (now - t < requiredMinutes * 60000 →
            canRunScraper runs source requiredMinutes now =
              (false, ceilDiv (requiredMinutes * 60000 - (now - t)) 60000) ∧
            60000 * (ceilDiv (requiredMinutes * 60000 - (now - t)) 60000 - 1)
                < requiredMinutes * 60000 - (now - t) ∧
            requiredMinutes * 60000 - (now - t)
                ≤ 60000 * ceilDiv (requiredMinutes * 60000 - (now - t)) 60000) := by
  refine ⟨?_, ?_, ?_⟩
  · unfold canRunScraper latestCompleted
    rw [completedRunsFor_idem]
  · intro h
    unfold canRunScraper
    rw [latestCompleted_of_empty h]
  · intro rec hrec
    obtain ⟨hmem, hmax⟩ := latestCompleted_spec hrec
    refine ⟨hmem, ?_, ?_⟩
    · intro r' hr' t' t ht' ht
      have := hmax r' hr'
      rw [ht', ht] at this
      simp [later] at this
      omega
    · intro t ht
      rw [canRunScraper_eq_of_latest hrec ht]
      constructor
      · intro hge
        rw [if_neg (by omega)]
      · intro hlt
        exact ⟨by rw [if_pos hlt], (ceilDiv_bounds _).1, (ceilDiv_bounds _).2⟩

/-- Witness for C1: a single completed linkedin record finished at time 0;
queried 30 minutes later with a 120-minute interval the gate blocks with
90 minutes to wait, and for an unseen source it allows immediately. -/
theorem canRunScraper_spec_witness :
    canRunScraper [sampleCompletedRun] "linkedin" 120 1800000 = (false, 90)
    ∧ canRunScraper [sampleCompletedRun] "stepstone" 120 1800000 = (true, 0) := by
  constructor
  · have h := canRunScraper_spec [sampleCompletedRun] "linkedin" 120 1800000
    have h2 := (((h.2.2 sampleCompletedRun (by decide)).2.2 0 rfl).2 (by decide)).1
    rw [h2]
    decide
  · have h := canRunScraper_spec [sampleCompletedRun] "stepstone" 120 1800000
    exact h.2.1 (by decide)

/-! ## C5 -/

/-- C5: when the cooldown gate blocks any effective source (after `"all"`
expands into its constituent sources), the workflow returns a failure
whose message names the blocking source and its wait time, and has no side
effects: the state — run table and job table — is returned unchanged, so
no RunRecord is created and no Listing is modified, and the result is the
same whatever the external process would have produced. -/
theorem workflow_blocked_no_side_effects (st : WorkflowState) (source keyword : String)
    (requiredMinutes now : Int) (exitCode : Int) (stderrData : String)
    (parsed : Option ScraperResult) (src : String)
    (hb : firstBlocked st.runs requiredMinutes now (effectiveSources source) = some src) :
    runScraperWorkflow st source keyword requiredMinutes now exitCode stderrData parsed
      = (st, { success := false
               message := blockedMessage (canRunScraper st.runs src requiredMinutes now).2 src
               stats := none })
    ∧ src ∈ effectiveSources source
    ∧ (canRunScraper st.runs src requiredMinutes now).1 = false := by
  refine ⟨?_, List.mem_of_find?_eq_some hb, ?_⟩
  · simp only [runScraperWorkflow, hb]
  · have h := List.find?_some hb
    simpa using h

/-- Witness for C5: with a linkedin run completed 30 minutes ago and a
120-minute interval, a linkedin trigger is rejected with a 90-minute wait
and neither table changes. -/
theorem workflow_blocked_no_side_effects_witness :
    runScraperWorkflow ⟨[sampleCompletedRun], [sampleJob]⟩ "linkedin" "embedded"
        120 1800000 0 "" none
      = (⟨[sampleCompletedRun], [sampleJob]⟩,
         { success := false, message := blockedMessage 90 "linkedin", stats := none }) := by
  have h := workflow_blocked_no_side_effects ⟨[sampleCompletedRun], [sampleJob]⟩
    "linkedin" "embedded" 120 1800000 0 "" none "linkedin" (by decide)
  rw [h.1]
  have h90 : (canRunScraper [sampleCompletedRun] "linkedin" 120 1800000).2 = 90 := by decide
  rw [show (⟨[sampleCompletedRun], [sampleJob]⟩ : WorkflowState).runs = [sampleCompletedRun]
    from rfl, h90]

/-! ## C6 -/

/-- C6: a workflow that passes the gate creates its RunRecord with
`status = "running"` and `completedAt = NULL`, and by the end of the call
the run table is the old table plus exactly that one record, closed
exactly once to `completed` or `failed` with `completedAt = some now`;
every pre-existing record is untouched (so records of earlier calls are
immutable), and the invariant `completedAt` set iff status ≠ running is
preserved across the call. -/
theorem runRecord_lifecycle (st : WorkflowState) (source keyword : String)
    (requiredMinutes now : Int) (exitCode : Int) (stderrData : String)
    (parsed : Option ScraperResult)
    (hb : firstBlocked st.runs requiredMinutes now (effectiveSources source) = none)
    (hinv : ∀ r ∈ st.runs, r.completedAt = none ↔ r.status = "running") :
    (openRunRecord (nextRunId st.runs) source now).status = "running"
    ∧ (openRunRecord (nextRunId st.runs) source now).completedAt = none
    ∧ ∃ final : RunRecord,
        (runScraperWorkflow st source keyword requiredMinutes now exitCode stderrData
            parsed).1.runs = st.runs ++ [final]
        ∧ final.id = nextRunId st.runs
        ∧ final.source = source
        ∧ final.startedAt = now
        ∧ (final.status = "completed" ∨ final.status = "failed")
        ∧ final.completedAt = some now
        ∧ ∀ r ∈ (runScraperWorkflow st source keyword requiredMinutes now exitCode
            stderrData parsed).1.runs, r.completedAt = none ↔ r.status = "running" := by
  obtain ⟨final, hruns, hid, hsrc, hstart, hstatus, hdone⟩ :=
    workflow_runs_shape st source keyword requiredMinutes now exitCode stderrData parsed hb
  refine ⟨rfl, rfl, final, hruns, hid, hsrc, hstart, hstatus, hdone, ?_⟩
  intro r hr
  rw [hruns] at hr
  rcases List.mem_append.1 hr with hr | hr
  · exact hinv r hr
  · have : r = final := by simpa using hr
    subst this
    rw [hdone]
    rcases hstatus with h | h <;> rw [h] <;> simp

/-- Witness for C6: from an empty ledger, a successful linkedin run leaves
exactly one record, closed as completed with a completion time. -/
theorem runRecord_lifecycle_witness :
    (openRunRecord (nextRunId []) "linkedin" 0).status = "running"
    ∧ ∃ final : RunRecord,
        (runScraperWorkflow ⟨[], []⟩ "linkedin" "embedded" 120 0 0 ""
            (some sampleResult)).1.runs = [final]
        ∧ (final.status = "completed" ∨ final.status = "failed")
        ∧ final.completedAt = some 0 := by
  obtain ⟨hopen, _, final, h1, _, _, _, h5, h6, _⟩ :=
    runRecord_lifecycle ⟨[], []⟩ "linkedin" "embedded" 120 0 0 "" (some sampleResult)
      (by decide) (by simp)
  exact ⟨hopen, final, by simpa using h1, h5, h6⟩

/-! ## C7 -/

/-- C7: when the external process exits with code 0 and its stdout parses
to a document with `success = false` and `error = "blocked"`, the invoker
rejects with exactly the embedded string "blocked", the workflow closes
its RunRecord as failed with error text "blocked" and completion time set,
leaves the job table untouched, and returns a non-throwing
`WorkflowResult` with `success = false`. -/
theorem reported_failure_closes_failed (st : WorkflowState) (source keyword : String)
    (requiredMinutes now : Int) (stderrData : String) (res : ScraperResult)
    (hb : firstBlocked st.runs requiredMinutes now (effectiveSources source) = none)
    (hsucc : res.success = false) (herr : res.error = some "blocked") :
    runPythonScraper 0 stderrData (some res) = Except.error "blocked"
    ∧ (runScraperWorkflow st source keyword requiredMinutes now 0 stderrData
          (some res)).1.runs
        = st.runs ++ [failRecord now "blocked" (openRunRecord (nextRunId st.runs) source now)]
    ∧ (runScraperWorkflow st source keyword requiredMinutes now 0 stderrData
          (some res)).1.jobs = st.jobs
    ∧ (runScraperWorkflow st source keyword requiredMinutes now 0 stderrData
          (some res)).2
        = { success := false, message := "Scraper failed: blocked", stats := none }
    ∧ (failRecord now "blocked" (openRunRecord (nextRunId st.runs) source now)).status
        = "failed"
    ∧ (failRecord now "blocked" (openRunRecord (nextRunId st.runs) source now)).error
        = some "blocked" := by
  have hrp : runPythonScraper 0 stderrData (some res) = Except.error "blocked" := by
    simp [runPythonScraper, hsucc, herr, orElseStr]
  refine ⟨hrp, ?_, ?_, ?_, rfl, rfl⟩
  · simp only [runScraperWorkflow, hb, hrp]
    exact updateRunsById_append_new nextRunId_not_mem rfl _
  · simp only [runScraperWorkflow, hb, hrp]
  · simp only [runScraperWorkflow, hb, hrp]
    rfl

/-- Witness for C7: from an empty ledger, the blocked document closes the
single run record as failed with error "blocked" and reports failure. -/
theorem reported_failure_closes_failed_witness :
    (runScraperWorkflow ⟨[], [sampleJob]⟩ "linkedin" "embedded" 120 5 0 ""
        (some blockedResult)).1.runs
      = [failRecord 5 "blocked" (openRunRecord (nextRunId []) "linkedin" 5)]
    ∧ (runScraperWorkflow ⟨[], [sampleJob]⟩ "linkedin" "embedded" 120 5 0 ""
        (some blockedResult)).1.jobs = [sampleJob]
    ∧ (runScraperWorkflow ⟨[], [sampleJob]⟩ "linkedin" "embedded" 120 5 0 ""
        (some blockedResult)).2.success = false := by
  obtain ⟨_, h2, h3, h4, _, _⟩ :=
    reported_failure_closes_failed ⟨[], [sampleJob]⟩ "linkedin" "embedded" 120 5 ""
      blockedResult (by decide) rfl rfl
  refine ⟨by simpa using h2, h3, ?_⟩
  rw [h4]

/-! ## C10 -/

/-- C10: a workflow invoked with `source = "all"` only ever appends run
records whose source column is the literal string `"all"`, and for every
concrete source (anything other than `"all"`) the cooldown gate answers
exactly the same after the call — whether it completed, failed or was
blocked — as it did before. -/
theorem all_run_starts_no_concrete_cooldown (st : WorkflowState) (keyword : String)
    (requiredMinutes now : Int) (exitCode : Int) (stderrData : String)
    (parsed : Option ScraperResult) :
    (∀ r ∈ (runScraperWorkflow st "all" keyword requiredMinutes now exitCode stderrData
        parsed).1.runs, r ∈ st.runs ∨ r.source = "all")
    ∧ ∀ s, s ≠ "all" → ∀ req' now',
        canRunScraper (runScraperWorkflow st "all" keyword requiredMinutes now exitCode
            stderrData parsed).1.runs s req' now'
          = canRunScraper st.runs s req' now' := by
  cases hb : firstBlocked st.runs requiredMinutes now (effectiveSources "all") with
  | some src =>
    constructor
    · intro r hr
      left
      simpa [runScraperWorkflow, hb] using hr
    · intro s _ req' now'
      simp [runScraperWorkflow, hb]
  | none =>
    obtain ⟨final, hruns, _, hsrc, _, _, _⟩ :=
      workflow_runs_shape st "all" keyword requiredMinutes now exitCode stderrData parsed hb
    constructor
    · intro r hr
      rw [hruns] at hr
      rcases List.mem_append.1 hr with hr | hr
      · exact Or.inl hr
      · right
        have : r = final := by simpa using hr
        rw [this, hsrc]
    · intro s hs req' now'
      rw [hruns]
      exact canRunScraper_congr
        (completedRunsFor_append_other (by rw [hsrc]; exact fun h => hs h.symm)) req' now'

/-- Witness for C10: a successful `"all"` run from an empty ledger starts
no cooldown for linkedin or stepstone — the gate still allows both
immediately afterwards, exactly as before the run. -/
theorem all_run_starts_no_concrete_cooldown_witness :
    canRunScraper (runScraperWorkflow ⟨[], []⟩ "all" "embedded" 120 0 0 ""
        (some sampleResult)).1.runs "linkedin" 120 1800000
      = canRunScraper ([] : List RunRecord) "linkedin" 120 1800000
    ∧ canRunScraper (runScraperWorkflow ⟨[], []⟩ "all" "embedded" 120 0 0 ""
        (some sampleResult)).1.runs "stepstone" 120 1800000
      = canRunScraper ([] : List RunRecord) "stepstone" 120 1800000
    ∧ canRunScraper ([] : List RunRecord) "linkedin" 120 1800000 = (true, 0) := by
  have h := all_run_starts_no_concrete_cooldown ⟨[], []⟩ "embedded" 120 0 0 ""
    (some sampleResult)
  exact ⟨h.2 "linkedin" (by decide) 120 1800000, h.2 "stepstone" (by decide) 120 1800000,
    by decide⟩

/-! ## C8 -/

/-- Counterexample to C8: the invoker enforces no timeout.  A process
whose wall-clock running time is 31536000000000 ms (a thousand years, far
past any bounded deadline) is neither terminated nor failed with a
TimeoutError — its output is processed exactly as if it had settled
instantly: successfully here, with the ordinary exit-code error for a late
failing process, and with the raw spawn error when the error listener is
what fired — never a timeout error. -/
theorem no_timeout_counterexample :
    runPythonScraperTimedFull 31536000000000 (ProcEvent.closed 0 "" (some sampleResult))
        = Except.ok sampleResult
    ∧ runPythonScraperTimedFull 31536000000000 (ProcEvent.closed 1 "boom" none)
        = Except.error ("Scraper failed with code 1: boom")
    ∧ runPythonScraperTimedFull 31536000000000
          (ProcEvent.spawnError "spawn python3 ENOENT")
        = Except.error "spawn python3 ENOENT" := by
  refine ⟨rfl, rfl, rfl⟩

/-- C8 amended: the invoker imposes no wall-clock deadline — it starts no
timer and never terminates the spawned process, so its outcome is
independent of how long the process ran before the settling event, and
every failure it can return originates in that event: the raw spawn error
from the error listener, a non-zero-exit error, the fixed JSON-parse
error, or the scraper-reported failure string; no timeout path exists. -/
theorem no_timeout_spec (e1 e2 : Int) (ev : ProcEvent) :
    runPythonScraperTimedFull e1 ev = runPythonScraperTimedFull e2 ev
    ∧ (∀ err, runPythonScraperTimedFull e1 (ProcEvent.spawnError err) = Except.error err)
    ∧ ∀ msg, runPythonScraperTimedFull e1 ev = Except.error msg →
        (ev = ProcEvent.spawnError msg)
        ∨ (∃ c s p, ev = ProcEvent.closed c s p ∧ c ≠ 0
            ∧ msg = "Scraper failed with code " ++ toString c ++ ": " ++ s)
        ∨ (∃ s, ev = ProcEvent.closed 0 s none
            ∧ msg = "Failed to parse scraper JSON output")
        ∨ (∃ s res, ev = ProcEvent.closed 0 s (some res) ∧ res.success = false
            ∧ msg = orElseStr res.error "Scraper failed") := by
  refine ⟨rfl, fun err => rfl, ?_⟩
  intro msg h
  cases ev with
  | spawnError err =>
    left
    have h' : Except.error (α := ScraperResult) err = Except.error msg := h
    injection h' with h'
    rw [h']
  | closed exitCode stderrData parsed =>
    have h' : runPythonScraper exitCode stderrData parsed = Except.error msg := h
    unfold runPythonScraper at h'
    split at h'
    · next hc =>
      right; left
      refine ⟨exitCode, stderrData, parsed, rfl, hc, ?_⟩
      injection h' with h'
      exact h'.symm
    · next hc =>
      have hc0 : exitCode = 0 := by omega
      subst hc0
      cases parsed with
      | none =>
        right; right; left
        refine ⟨stderrData, rfl, ?_⟩
        simp only [] at h'
        injection h' with h'
        exact h'.symm
      | some res =>
        by_cases hs : res.success
        · simp [hs] at h'
        · simp only [Bool.not_eq_true] at hs
          right; right; right
          refine ⟨stderrData, res, rfl, hs, ?_⟩
          simp [hs] at h'
          exact h'.symm

/-- Witness for the amended C8: a spawn failure settles identically
whether it fired after one millisecond or after thirty-two years, and the
failure it produces is exactly the raw spawn error of the error
listener. -/
theorem no_timeout_spec_witness :
    runPythonScraperTimedFull 1 (ProcEvent.spawnError "spawn python3 ENOENT")
        = runPythonScraperTimedFull 999999999999
            (ProcEvent.spawnError "spawn python3 ENOENT")
    ∧ runPythonScraperTimedFull 1 (ProcEvent.spawnError "spawn python3 ENOENT")
        = Except.error "spawn python3 ENOENT"
    ∧ (ProcEvent.spawnError "spawn python3 ENOENT"
        = ProcEvent.spawnError "spawn python3 ENOENT"
      ∨ (∃ c s p, ProcEvent.spawnError "spawn python3 ENOENT" = ProcEvent.closed c s p
          ∧ c ≠ 0 ∧ "spawn python3 ENOENT"
              = "Scraper failed with code " ++ toString c ++ ": " ++ s)
      ∨ (∃ s, ProcEvent.spawnError "spawn python3 ENOENT" = ProcEvent.closed 0 s none
          ∧ "spawn python3 ENOENT" = "Failed to parse scraper JSON output")
      ∨ (∃ s res, ProcEvent.spawnError "spawn python3 ENOENT"
            = ProcEvent.closed 0 s (some res)
          ∧ res.success = false
          ∧ "spawn python3 ENOENT" = orElseStr res.error "Scraper failed")) := by
  have h := no_timeout_spec 1 999999999999 (ProcEvent.spawnError "spawn python3 ENOENT")
  exact ⟨h.1, h.2.1 "spawn python3 ENOENT",
    h.2.2 "spawn python3 ENOENT" (h.2.1 "spawn python3 ENOENT")⟩

end Crystal
